import Mathlib

/-!
Verification of the cache-topology assembler
(`vendor/github.com/cortexproject/cortex/pkg/chunk/cache/cache.go`).

The assembler `New` turns a `Config` into a decorator tree of cache
backends.  Backend constructors (`NewFifoCache`, `NewMemcached`,
`NewRedisCache`, decorators `Instrument`, `NewBackground`, `NewTiered`)
live in other files of the package and are external collaborators here:
we model each as a free constructor of the `Cache` tree, so that the
assembly algorithm of `New` — the subject of the claims — is captured
exactly while the backends stay opaque.

`time.Duration` is an `Int` (int64 nanoseconds; the assembler only
compares durations to zero and copies them, so no overflow arises).
-/

namespace cache

/-- Go `time.Duration` (int64 nanoseconds). -/
abbrev Duration := Int

/-- Configuration of the background write-behind decorator.  Its fields are
defined in another file of the package and are never read by `cache.go`;
the assembler passes the value through opaquely, so no field is modelled. -/
structure BackgroundConfig where
deriving Repr, DecidableEq

/-- Configuration of the memcached backend.  Only `Expiration` is read by
`cache.go`; the remaining fields live in another file and are passed
through opaquely. -/
structure MemcachedConfig where
  Expiration : Duration
deriving Repr, DecidableEq

/-- Configuration of the memcached client.  Only `Host` is read by
`cache.go`; the remaining fields live in another file and are passed
through opaquely. -/
structure MemcachedClientConfig where
  Host : String
deriving Repr, DecidableEq

/-- Configuration of the redis backend.  Only `Endpoint` and `Expiration`
are read by `cache.go`; the remaining fields live in another file and are
passed through opaquely. -/
structure RedisConfig where
  Endpoint : String
  Expiration : Duration
deriving Repr, DecidableEq

/-- Configuration of the local in-process fifo cache.  Only `Validity` is
read by `cache.go`; the remaining fields live in another file and are
passed through opaquely. -/
structure FifoCacheConfig where
  Validity : Duration
deriving Repr, DecidableEq

/-- The decorator tree a run of the assembler builds.  Each constructor
records exactly the arguments the corresponding Go constructor call in
`cache.go` receives; `injected` stands for an arbitrary externally
injected `Cache` value (the test seam). -/
inductive Cache where
  | injected (id : Nat)
  | fifo (name : String) (cfg : FifoCacheConfig)
  | memcached (cfg : MemcachedConfig) (client : MemcachedClientConfig) (namePfx : String)
  | redis (cfg : RedisConfig) (name : String) (pool : Option Unit)
  | instrument (name : String) (inner : Cache)
  | background (name : String) (cfg : BackgroundConfig) (inner : Cache)
  | tiered (tiers : List Cache)
deriving Repr

/-- External constructor `NewFifoCache(name, cfg)`. -/
def NewFifoCache (name : String) (cfg : FifoCacheConfig) : Cache :=
  Cache.fifo name cfg

/-- External constructor `NewMemcachedClient(cfg)`: opaque, returns its
configuration as the client value. -/
def NewMemcachedClient (cfg : MemcachedClientConfig) : MemcachedClientConfig :=
  cfg

/-- External constructor `NewMemcached(cfg, client, name)`. -/
def NewMemcached (cfg : MemcachedConfig) (client : MemcachedClientConfig)
    (namePfx : String) : Cache :=
  Cache.memcached cfg client namePfx

/-- External constructor `NewRedisCache(cfg, name, pool)`. -/
def NewRedisCache (cfg : RedisConfig) (name : String) (pool : Option Unit) : Cache :=
  Cache.redis cfg name pool

/-- External decorator constructor `Instrument(name, cache)`. -/
def Instrument (name : String) (inner : Cache) : Cache :=
  Cache.instrument name inner

/-- External decorator constructor `NewBackground(name, cfg, cache)`. -/
def NewBackground (name : String) (cfg : BackgroundConfig) (inner : Cache) : Cache :=
  Cache.background name cfg inner

/-- External composite constructor `NewTiered(caches)`. -/
def NewTiered (caches : List Cache) : Cache :=
  Cache.tiered caches

/-- `Config` for building Caches (`cache.go` lines 23-40). -/
structure Config where
  EnableFifoCache : Bool
  DefaultValidity : Duration
  Background : BackgroundConfig
  Memcache : MemcachedConfig
  MemcacheClient : MemcachedClientConfig
  Redis : RedisConfig
  Fifocache : FifoCacheConfig
  Prefix : String
  Cache : Option Cache

/-- `New(cfg Config) (Cache, error)` (`cache.go` lines 57-103), translated
statement by statement: the Go local `caches` slice becomes a shadowed
`let`, the in-place defaulting of a sub-configuration's duration becomes a
functional record update, and the `(nil, error)` return becomes
`Except.error`. -/
def New (cfg : Config) : Except String Cache :=
  match cfg.Cache with
  | some c => Except.ok c
  | none =>
    let caches : List Cache := []
    let caches :=
      if cfg.EnableFifoCache then
        let fifocfg :=
          if cfg.Fifocache.Validity = 0 ∧ cfg.DefaultValidity ≠ 0 then
            { cfg.Fifocache with Validity := cfg.DefaultValidity }
          else cfg.Fifocache
        let cache := NewFifoCache (cfg.Prefix ++ "fifocache") fifocfg
        caches ++ [Instrument (cfg.Prefix ++ "fifocache") cache]
      else caches
    if cfg.MemcacheClient.Host ≠ "" ∧ cfg.Redis.Endpoint ≠ "" then
      Except.error "use of multiple cache storage systems is not supported"
    else
      let caches :=
        if cfg.MemcacheClient.Host ≠ "" then
          let memcfg :=
            if cfg.Memcache.Expiration = 0 ∧ cfg.DefaultValidity ≠ 0 then
              { cfg.Memcache with Expiration := cfg.DefaultValidity }
            else cfg.Memcache
          let client := NewMemcachedClient cfg.MemcacheClient
          let cache := NewMemcached memcfg client cfg.Prefix
          let cacheName := cfg.Prefix ++ "memcache"
          caches ++ [NewBackground cacheName cfg.Background (Instrument cacheName cache)]
        else caches
      let caches :=
        if cfg.Redis.Endpoint ≠ "" then
          let rediscfg :=
            if cfg.Redis.Expiration = 0 ∧ cfg.DefaultValidity ≠ 0 then
              { cfg.Redis with Expiration := cfg.DefaultValidity }
            else cfg.Redis
          let cacheName := cfg.Prefix ++ "redis"
          let cache := NewRedisCache rediscfg cacheName none
          caches ++ [NewBackground cacheName cfg.Background (Instrument cacheName cache)]
        else caches
      let cache := NewTiered caches
      let cache :=
        if caches.length > 1 then Instrument (cfg.Prefix ++ "tiered") cache
        else cache
      Except.ok cache

/-! Characterization of a successful run of `New`.  The helper definitions
below name the tier each enabled backend contributes and the final shape;
the lemma `New_ok_char` proves they describe `New` exactly. -/

/-- The tier contributed by the local fifo backend when it is enabled. -/
def fifoTier (cfg : Config) : Cache :=
  Instrument (cfg.Prefix ++ "fifocache")
    (NewFifoCache (cfg.Prefix ++ "fifocache")
      (if cfg.Fifocache.Validity = 0 ∧ cfg.DefaultValidity ≠ 0 then
        { cfg.Fifocache with Validity := cfg.DefaultValidity }
      else cfg.Fifocache))

/-- The tier contributed by the memcached backend when its host is set. -/
def memcachedTier (cfg : Config) : Cache :=
  NewBackground (cfg.Prefix ++ "memcache") cfg.Background
    (Instrument (cfg.Prefix ++ "memcache")
      (NewMemcached
        (if cfg.Memcache.Expiration = 0 ∧ cfg.DefaultValidity ≠ 0 then
          { cfg.Memcache with Expiration := cfg.DefaultValidity }
        else cfg.Memcache)
        (NewMemcachedClient cfg.MemcacheClient) cfg.Prefix))

/-- The tier contributed by the redis backend when its endpoint is set. -/
def redisTier (cfg : Config) : Cache :=
  NewBackground (cfg.Prefix ++ "redis") cfg.Background
    (Instrument (cfg.Prefix ++ "redis")
      (NewRedisCache
        (if cfg.Redis.Expiration = 0 ∧ cfg.DefaultValidity ≠ 0 then
          { cfg.Redis with Expiration := cfg.DefaultValidity }
        else cfg.Redis)
        (cfg.Prefix ++ "redis") none))

/-- The ordered tier list a successful, non-overridden run of `New`
assembles. -/
def tiersOf (cfg : Config) : List Cache :=
  (if cfg.EnableFifoCache then [fifoTier cfg] else []) ++
    (if cfg.MemcacheClient.Host ≠ "" then [memcachedTier cfg] else []) ++
      (if cfg.Redis.Endpoint ≠ "" then [redisTier cfg] else [])

/-- The final value a successful, non-overridden run of `New` returns:
the tiered composite, wrapped once more with instrumentation when more
than one tier was assembled. -/
def assembled (cfg : Config) : Cache :=
  if (tiersOf cfg).length > 1 then
    Instrument (cfg.Prefix ++ "tiered") (NewTiered (tiersOf cfg))
  else NewTiered (tiersOf cfg)

theorem New_ok_char (cfg : Config) (h1 : cfg.Cache = none)
    (h2 : ¬(cfg.MemcacheClient.Host ≠ "" ∧ cfg.Redis.Endpoint ≠ "")) :
    New cfg = Except.ok (assembled cfg) := by
  unfold New assembled tiersOf fifoTier memcachedTier redisTier
  rw [h1]
  simp only [h2, if_false, if_neg h2]
  by_cases hf : cfg.EnableFifoCache <;>
    by_cases hm : cfg.MemcacheClient.Host ≠ "" <;>
      by_cases hr : cfg.Redis.Endpoint ≠ "" <;>
        simp_all

theorem New_error_char (cfg : Config) (h1 : cfg.Cache = none)
    (h2 : cfg.MemcacheClient.Host ≠ "") (h3 : cfg.Redis.Endpoint ≠ "") :
    New cfg = Except.error "use of multiple cache storage systems is not supported" := by
  unfold New
  rw [h1]
  simp only [if_pos (And.intro h2 h3)]

/-! Concrete configurations used to instantiate the theorems below. -/

/-- The zero configuration: no override, local cache disabled, no remote
endpoints, all durations zero. -/
def emptyConfig : Config where
  EnableFifoCache := false
  DefaultValidity := 0
  Background := {}
  Memcache := { Expiration := 0 }
  MemcacheClient := { Host := "" }
  Redis := { Endpoint := "", Expiration := 0 }
  Fifocache := { Validity := 0 }
  Prefix := ""
  Cache := none

/-- Both remote backends configured, no override. -/
def bothRemotesConfig : Config :=
  { emptyConfig with
      MemcacheClient := { Host := "x" }
      Redis := { Endpoint := "y", Expiration := 0 } }

/-- Both remote backends configured together with an explicit override. -/
def overrideBothConfig : Config :=
  { bothRemotesConfig with Cache := some (Cache.injected 7) }

/-- Local cache enabled, redis configured, a nonzero default validity and
zero per-backend durations. -/
def defaultingConfig : Config :=
  { emptyConfig with
      EnableFifoCache := true
      DefaultValidity := 5
      Redis := { Endpoint := "y", Expiration := 0 }
      Prefix := "p" }

/-- Only the local cache enabled. -/
def localOnlyConfig : Config :=
  { emptyConfig with EnableFifoCache := true }

/-- Local cache enabled and memcached configured. -/
def localMemcachedConfig : Config :=
  { emptyConfig with
      EnableFifoCache := true
      MemcacheClient := { Host := "x" } }

/-- C1: New returns a configuration error exactly when no explicit override
cache is set and both the memcached host and the redis endpoint are
non-empty; in every other case it returns a cache and no error. -/
theorem New_config_error_iff (cfg : Config) :
    (∃ e, New cfg = Except.error e) ↔
      cfg.Cache = none ∧ cfg.MemcacheClient.Host ≠ "" ∧ cfg.Redis.Endpoint ≠ "" := by
  constructor
  · rintro ⟨e, he⟩
    cases hc : cfg.Cache with
    | some c =>
      rw [New, hc] at he
      cases he
    | none =>
      by_cases hb : cfg.MemcacheClient.Host ≠ "" ∧ cfg.Redis.Endpoint ≠ ""
      · exact ⟨rfl, hb⟩
      · rw [New_ok_char cfg hc hb] at he
        cases he
  · rintro ⟨h1, h2, h3⟩
    exact ⟨_, New_error_char cfg h1 h2 h3⟩

/-- C2: when an explicit override Cache is present, New returns exactly
that cache with no error; nothing else runs, so no error is raised even
when both remote endpoints are configured. -/
theorem New_explicit_override (cfg : Config) (c : Cache) (h : cfg.Cache = some c) :
    New cfg = Except.ok c := by
  rw [New, h]

theorem New_explicit_override_witness :
    New overrideBothConfig = Except.ok (Cache.injected 7) :=
  New_explicit_override overrideBothConfig (Cache.injected 7) rfl

/-- C7: a configuration with no override, local caching disabled and
neither remote endpoint set is legal: New returns the tiered composite of
the empty tier list and no error. -/
theorem New_zero_tiers_ok (cfg : Config) (h1 : cfg.Cache = none)
    (h2 : cfg.EnableFifoCache = false) (h3 : cfg.MemcacheClient.Host = "")
    (h4 : cfg.Redis.Endpoint = "") :
    New cfg = Except.ok (NewTiered []) := by
  rw [New_ok_char cfg h1 (by simp [h3])]
  simp [assembled, tiersOf, h2, h3, h4]

theorem New_zero_tiers_ok_witness :
    New emptyConfig = Except.ok (NewTiered []) :=
  New_zero_tiers_ok emptyConfig rfl rfl rfl rfl

/-- C9, counterexample: with both remote backends configured, the error
New returns carries the message "use of multiple cache storage systems is
not supported", which differs from the message the claim states. -/
theorem New_error_message_counterexample :
    New bothRemotesConfig =
        Except.error "use of multiple cache storage systems is not supported" ∧
      "use of multiple cache storage systems is not supported" ≠
        "multiple cache storage systems not supported" :=
  ⟨New_error_char bothRemotesConfig rfl (by decide) (by decide), by decide⟩

/-- C9, amended: when both the memcached and redis backends are configured
and no override is present, the configuration error New returns carries
exactly the message "use of multiple cache storage systems is not
supported". -/
theorem New_error_message (cfg : Config) (h1 : cfg.Cache = none)
    (h2 : cfg.MemcacheClient.Host ≠ "") (h3 : cfg.Redis.Endpoint ≠ "") :
    New cfg = Except.error "use of multiple cache storage systems is not supported" :=
  New_error_char cfg h1 h2 h3

theorem New_error_message_witness :
    New bothRemotesConfig =
      Except.error "use of multiple cache storage systems is not supported" :=
  New_error_message bothRemotesConfig rfl (by decide) (by decide)

/-! Flag registration (`cache.go` lines 43-54). -/

/-- A flag registered in a `flag.FlagSet`: its name, its default value
rendered as a string, and its usage text. -/
structure Flag where
  name : String
  defValue : String
  usage : String
deriving Repr, DecidableEq

/-- A `flag.FlagSet`, as the ordered list of flags registered in it. -/
abbrev FlagSet := List Flag

/-- `flag.FlagSet.BoolVar(p, name, value, usage)`: registers the flag and
immediately stores the default `value` through the pointer `p`; modelled
by returning the new field value together with the extended flag set. -/
def boolVar (f : FlagSet) (name : String) (value : Bool) (usage : String) :
    Bool × FlagSet :=
  (value, f ++ [{ name := name, defValue := toString value, usage := usage }])

/-- `flag.FlagSet.DurationVar(p, name, value, usage)`: registers the flag
and immediately stores the default `value` through the pointer `p`. -/
def durationVar (f : FlagSet) (name : String) (value : Duration) (usage : String) :
    Duration × FlagSet :=
  (value, f ++ [{ name := name, defValue := toString value, usage := usage }])

/-- The `RegisterFlagsWithPrefix` methods of the five sub-configurations
are defined in other files of the package.  Each runs on a pointer to its
own sub-configuration and on the flag set, so whatever its body does it
can change nothing else of `Config`; the top-level registration is
therefore modelled parametrically in these five methods. -/
structure SubRegistrars where
  background : String → String → FlagSet → BackgroundConfig → BackgroundConfig × FlagSet
  memcache : String → String → FlagSet → MemcachedConfig → MemcachedConfig × FlagSet
  memcacheClient : String → String → FlagSet →
    MemcachedClientConfig → MemcachedClientConfig × FlagSet
  redis : String → String → FlagSet → RedisConfig → RedisConfig × FlagSet
  fifocache : String → String → FlagSet → FifoCacheConfig → FifoCacheConfig × FlagSet

/-- `(cfg *Config) RegisterFlagsWithPrefix(prefix, description, f)`
(`cache.go` lines 43-54), statement by statement: the five sub-config
registrations run first, then the two top-level flags are registered with
their defaults stored through the pointed-to fields, and finally
`cfg.Prefix = prefix` is assigned. -/
def Config.RegisterFlagsWithPrefix (regs : SubRegistrars) (cfg : Config)
    (pfx descr : String) (f : FlagSet) : Config × FlagSet :=
  let (bg, f) := regs.background pfx descr f cfg.Background
  let (mc, f) := regs.memcache pfx descr f cfg.Memcache
  let (mcc, f) := regs.memcacheClient pfx descr f cfg.MemcacheClient
  let (rd, f) := regs.redis pfx descr f cfg.Redis
  let (fc, f) := regs.fifocache pfx descr f cfg.Fifocache
  let (efc, f) := boolVar f (pfx ++ "cache.enable-fifocache") false
    (descr ++ "Enable in-memory cache.")
  let (dv, f) := durationVar f (pfx ++ "default-validity") 0
    (descr ++ "The default validity of entries for caches unless overridden.")
  ({ cfg with
      Background := bg
      Memcache := mc
      MemcacheClient := mcc
      Redis := rd
      Fifocache := fc
      EnableFifoCache := efc
      DefaultValidity := dv
      Prefix := pfx }, f)

/-- C10: for every prefix, description, flag set, starting configuration
and whatever the sub-configuration registrations do, RegisterFlagsWithPrefix
sets the configuration's Prefix field to its prefix argument, overwriting
any previous value. -/
theorem RegisterFlagsWithPrefix_sets_Prefix (regs : SubRegistrars)
    (cfg : Config) (pfx descr : String) (f : FlagSet) :
    ((Config.RegisterFlagsWithPrefix regs cfg pfx descr f).1).Prefix = pfx :=
  rfl

/-! Observers on the assembled decorator tree. -/

mutual

/-- Validity values of all fifo backends in a cache tree. -/
def fifoValidities : Cache → List Duration
  | .fifo _ fc => [fc.Validity]
  | .instrument _ inner => fifoValidities inner
  | .background _ _ inner => fifoValidities inner
  | .tiered ts => fifoValiditiesList ts
  | _ => []

/-- Validity values of all fifo backends in a list of cache trees. -/
def fifoValiditiesList : List Cache → List Duration
  | [] => []
  | c :: cs => fifoValidities c ++ fifoValiditiesList cs

end

mutual

/-- Expiration values of all memcached backends in a cache tree. -/
def memcachedExpirations : Cache → List Duration
  | .memcached mcfg _ _ => [mcfg.Expiration]
  | .instrument _ inner => memcachedExpirations inner
  | .background _ _ inner => memcachedExpirations inner
  | .tiered ts => memcachedExpirationsList ts
  | _ => []

/-- Expiration values of all memcached backends in a list of cache trees. -/
def memcachedExpirationsList : List Cache → List Duration
  | [] => []
  | c :: cs => memcachedExpirations c ++ memcachedExpirationsList cs

end

mutual

/-- Expiration values of all redis backends in a cache tree. -/
def redisExpirations : Cache → List Duration
  | .redis rcfg _ _ => [rcfg.Expiration]
  | .instrument _ inner => redisExpirations inner
  | .background _ _ inner => redisExpirations inner
  | .tiered ts => redisExpirationsList ts
  | _ => []

/-- Expiration values of all redis backends in a list of cache trees. -/
def redisExpirationsList : List Cache → List Duration
  | [] => []
  | c :: cs => redisExpirations c ++ redisExpirationsList cs

end

/-- The defaulting rule of the claim, per backend: the constructed value
equals the backend's own duration whenever that is nonzero, equals the
default only when the own duration is zero, and is left unchanged when the
default itself is zero. -/
def ResolvesValidity (own dflt v : Duration) : Prop :=
  (own ≠ 0 → v = own) ∧ (own = 0 → v = dflt) ∧ (dflt = 0 → v = own)

/-- C3: every backend New constructs carries its own configured duration
when that is nonzero and the default validity only when its own duration
is zero; a zero default leaves the backend's duration unchanged.  Each
enabled backend contributes exactly one constructed duration. -/
theorem New_validity_defaulting (cfg : Config) (h1 : cfg.Cache = none)
    (h2 : ¬(cfg.MemcacheClient.Host ≠ "" ∧ cfg.Redis.Endpoint ≠ "")) :
    ∃ c, New cfg = Except.ok c ∧
      ((cfg.EnableFifoCache → (fifoValidities c).length = 1) ∧
        ∀ v ∈ fifoValidities c,
          ResolvesValidity cfg.Fifocache.Validity cfg.DefaultValidity v) ∧
      ((cfg.MemcacheClient.Host ≠ "" → (memcachedExpirations c).length = 1) ∧
        ∀ v ∈ memcachedExpirations c,
          ResolvesValidity cfg.Memcache.Expiration cfg.DefaultValidity v) ∧
      ((cfg.Redis.Endpoint ≠ "" → (redisExpirations c).length = 1) ∧
        ∀ v ∈ redisExpirations c,
          ResolvesValidity cfg.Redis.Expiration cfg.DefaultValidity v) := by
  refine ⟨assembled cfg, New_ok_char cfg h1 h2, ?_⟩
  unfold assembled tiersOf fifoTier memcachedTier redisTier ResolvesValidity
  by_cases hf : cfg.EnableFifoCache <;>
    by_cases hm : cfg.MemcacheClient.Host ≠ "" <;>
      by_cases hr : cfg.Redis.Endpoint ≠ "" <;>
        simp_all [NewFifoCache, NewMemcached, NewMemcachedClient, NewRedisCache,
          Instrument, NewBackground, NewTiered,
          fifoValidities, fifoValiditiesList,
          memcachedExpirations, memcachedExpirationsList,
          redisExpirations, redisExpirationsList] <;>
        by_cases hv : cfg.Fifocache.Validity = 0 <;>
          by_cases hd : cfg.DefaultValidity = 0 <;>
            by_cases hme : cfg.Memcache.Expiration = 0 <;>
              by_cases hre : cfg.Redis.Expiration = 0 <;>
                simp_all

theorem New_validity_defaulting_witness :
    ∃ c, New defaultingConfig = Except.ok c ∧
      ((defaultingConfig.EnableFifoCache → (fifoValidities c).length = 1) ∧
        ∀ v ∈ fifoValidities c,
          ResolvesValidity defaultingConfig.Fifocache.Validity
            defaultingConfig.DefaultValidity v) ∧
      ((defaultingConfig.MemcacheClient.Host ≠ "" →
          (memcachedExpirations c).length = 1) ∧
        ∀ v ∈ memcachedExpirations c,
          ResolvesValidity defaultingConfig.Memcache.Expiration
            defaultingConfig.DefaultValidity v) ∧
      ((defaultingConfig.Redis.Endpoint ≠ "" → (redisExpirations c).length = 1) ∧
        ∀ v ∈ redisExpirations c,
          ResolvesValidity defaultingConfig.Redis.Expiration
            defaultingConfig.DefaultValidity v) :=
  New_validity_defaulting defaultingConfig rfl (by decide)

/-- The instrumentation name at the top of a cache tree, if the outermost
layer is an instrumentation decorator. -/
def instrumentTopName : Cache → Option String
  | .instrument n _ => some n
  | _ => none

/-- C4: a successful non-overridden run of New wraps its result in an
outer instrumentation layer named with the "tiered" suffix exactly when
the assembled tier list has more than one entry; with zero tiers or one
tier the tiered composite is returned directly, with no outer
instrumentation layer. -/
theorem New_outer_instrumentation_iff (cfg : Config) (h1 : cfg.Cache = none)
    (h2 : ¬(cfg.MemcacheClient.Host ≠ "" ∧ cfg.Redis.Endpoint ≠ "")) :
    ∃ c, New cfg = Except.ok c ∧
      instrumentTopName c =
        (if (tiersOf cfg).length > 1 then some (cfg.Prefix ++ "tiered") else none) ∧
      ((tiersOf cfg).length ≤ 1 → c = NewTiered (tiersOf cfg)) := by
  refine ⟨assembled cfg, New_ok_char cfg h1 h2, ?_, ?_⟩ <;>
    unfold assembled <;>
      split <;>
        simp_all [instrumentTopName, Instrument, NewTiered]

theorem New_outer_instrumentation_iff_witness :
    ∃ c, New localOnlyConfig = Except.ok c ∧
      instrumentTopName c =
        (if (tiersOf localOnlyConfig).length > 1 then
          some (localOnlyConfig.Prefix ++ "tiered")
        else none) ∧
      ((tiersOf localOnlyConfig).length ≤ 1 →
        c = NewTiered (tiersOf localOnlyConfig)) :=
  New_outer_instrumentation_iff localOnlyConfig rfl (by decide)

/-- The decorator chain of the local tier: the fifo backend wrapped only
with an instrumentation decorator carrying the same name. -/
def IsLocalTier (t : Cache) : Prop :=
  ∃ n fc, t = Instrument n (NewFifoCache n fc)

/-- A remote backend: a memcached or a redis backend. -/
def IsRemoteBackend (b : Cache) : Prop :=
  (∃ mcfg client npfx, b = NewMemcached mcfg client npfx) ∨
    ∃ rcfg n pool, b = NewRedisCache rcfg n pool

/-- The decorator chain of a remote tier: the backend wrapped first with
an instrumentation decorator and then with the background decorator, both
carrying the same name. -/
def IsRemoteTier (t : Cache) : Prop :=
  ∃ n bcfg b, t = NewBackground n bcfg (Instrument n b) ∧ IsRemoteBackend b

/-- C5: every tier a successful non-overridden run of New appends has the
prescribed decorator chain: the local tier is the fifo backend wrapped
only with instrumentation and no background decorator, while each remote
tier is its backend wrapped first with instrumentation and then with the
background decorator. -/
theorem New_tier_decorator_chain (cfg : Config) (h1 : cfg.Cache = none)
    (h2 : ¬(cfg.MemcacheClient.Host ≠ "" ∧ cfg.Redis.Endpoint ≠ "")) :
    New cfg = Except.ok (assembled cfg) ∧
      IsLocalTier (fifoTier cfg) ∧
      IsRemoteTier (memcachedTier cfg) ∧
      IsRemoteTier (redisTier cfg) ∧
      ∀ t ∈ tiersOf cfg, IsLocalTier t ∨ IsRemoteTier t := by
  refine ⟨New_ok_char cfg h1 h2, ⟨_, _, rfl⟩,
    ⟨_, _, _, rfl, Or.inl ⟨_, _, _, rfl⟩⟩,
    ⟨_, _, _, rfl, Or.inr ⟨_, _, _, rfl⟩⟩, ?_⟩
  intro t ht
  unfold tiersOf at ht
  simp only [List.mem_append] at ht
  rcases ht with (ht | ht) | ht <;>
    [skip; skip; skip] <;>
    · split at ht <;> simp_all
      first
        | exact Or.inl ⟨_, _, rfl⟩
        | exact Or.inr ⟨_, _, _, rfl, Or.inl ⟨_, _, _, rfl⟩⟩
        | exact Or.inr ⟨_, _, _, rfl, Or.inr ⟨_, _, _, rfl⟩⟩

theorem New_tier_decorator_chain_witness :
    New localMemcachedConfig = Except.ok (assembled localMemcachedConfig) ∧
      IsLocalTier (fifoTier localMemcachedConfig) ∧
      IsRemoteTier (memcachedTier localMemcachedConfig) ∧
      IsRemoteTier (redisTier localMemcachedConfig) ∧
      ∀ t ∈ tiersOf localMemcachedConfig, IsLocalTier t ∨ IsRemoteTier t :=
  New_tier_decorator_chain localMemcachedConfig rfl (by decide)

/-- C6: the tier list a successful non-overridden run of New assembles
splits as a block of local tiers followed by a block of remote tiers — so
the local tier always precedes any remote tier — and the remote block has
at most one element, never both a memcached and a redis tier. -/
theorem New_tier_order (cfg : Config) (h1 : cfg.Cache = none)
    (h2 : ¬(cfg.MemcacheClient.Host ≠ "" ∧ cfg.Redis.Endpoint ≠ "")) :
    New cfg = Except.ok (assembled cfg) ∧
      ∃ locals remotes : List Cache,
        tiersOf cfg = locals ++ remotes ∧
        (∀ t ∈ locals, IsLocalTier t ∧ ¬IsRemoteTier t) ∧
        (∀ t ∈ remotes, IsRemoteTier t) ∧
        remotes.length ≤ 1 := by
  refine ⟨New_ok_char cfg h1 h2, if cfg.EnableFifoCache then [fifoTier cfg] else [],
    (if cfg.MemcacheClient.Host ≠ "" then [memcachedTier cfg] else []) ++
      (if cfg.Redis.Endpoint ≠ "" then [redisTier cfg] else []),
    by unfold tiersOf; rw [List.append_assoc], ?_, ?_, ?_⟩
  · intro t ht
    split at ht <;> simp_all
    refine ⟨⟨_, _, rfl⟩, ?_⟩
    rintro ⟨n, bcfg, b, hb, -⟩
    simp [fifoTier, Instrument, NewBackground] at hb
  · intro t ht
    simp only [List.mem_append] at ht
    rcases ht with ht | ht <;>
      · split at ht <;> simp_all
        first
          | exact ⟨_, _, _, rfl, Or.inl ⟨_, _, _, rfl⟩⟩
          | exact ⟨_, _, _, rfl, Or.inr ⟨_, _, _, rfl⟩⟩
  · by_cases hm : cfg.MemcacheClient.Host ≠ "" <;>
      by_cases hr : cfg.Redis.Endpoint ≠ "" <;>
        simp_all

theorem New_tier_order_witness :
    New defaultingConfig = Except.ok (assembled defaultingConfig) ∧
      ∃ locals remotes : List Cache,
        tiersOf defaultingConfig = locals ++ remotes ∧
        (∀ t ∈ locals, IsLocalTier t ∧ ¬IsRemoteTier t) ∧
        (∀ t ∈ remotes, IsRemoteTier t) ∧
        remotes.length ≤ 1 :=
  New_tier_order defaultingConfig rfl (by decide)

mutual

/-- The names carried by the layers of a cache tree, outermost first: the
names of the instrumentation and background decorators and of the named
backend constructors (fifo and redis).  `NewMemcached` receives the bare
configured name prefix as a metrics prefix rather than a layer name, and
injected caches carry no name, so neither contributes an entry. -/
def namesOf : Cache → List String
  | .injected _ => []
  | .fifo n _ => [n]
  | .memcached _ _ _ => []
  | .redis _ n _ => [n]
  | .instrument n inner => n :: namesOf inner
  | .background n _ inner => n :: namesOf inner
  | .tiered ts => namesOfList ts

/-- The layer names of a list of cache trees, in order. -/
def namesOfList : List Cache → List String
  | [] => []
  | c :: cs => namesOf c ++ namesOfList cs

end

theorem string_append_right_injective (p : String) {a b : String}
    (h : p ++ a = p ++ b) : a = b := by
  apply String.ext
  have hd := congrArg String.data h
  rw [String.data_append, String.data_append] at hd
  exact List.append_cancel_left hd

theorem kindNames_nodup (p : String) :
    List.Nodup [p ++ "fifocache", p ++ "memcache", p ++ "redis", p ++ "tiered"] := by
  have hmap : [p ++ "fifocache", p ++ "memcache", p ++ "redis", p ++ "tiered"] =
      List.map (fun s => p ++ s) ["fifocache", "memcache", "redis", "tiered"] := rfl
  rw [hmap]
  exact (by decide : List.Nodup ["fifocache", "memcache", "redis", "tiered"]).map
    fun a b h => string_append_right_injective p h

/-- C8: the layer names of a successful non-overridden run of New are the
configured prefix concatenated with the backend kind — "fifocache" for the
local backend and its instrumentation, "memcache" for the memcached tier's
decorators, "redis" for the redis tier's decorators and backend, "tiered"
for the outer wrap — and the four kind names are pairwise distinct for
every prefix. -/
theorem New_layer_names (cfg : Config) (h1 : cfg.Cache = none)
    (h2 : ¬(cfg.MemcacheClient.Host ≠ "" ∧ cfg.Redis.Endpoint ≠ "")) :
    ∃ c, New cfg = Except.ok c ∧
      namesOf c =
        (if (tiersOf cfg).length > 1 then [cfg.Prefix ++ "tiered"] else []) ++
          ((if cfg.EnableFifoCache then
            [cfg.Prefix ++ "fifocache", cfg.Prefix ++ "fifocache"] else []) ++
            ((if cfg.MemcacheClient.Host ≠ "" then
              [cfg.Prefix ++ "memcache", cfg.Prefix ++ "memcache"] else []) ++
              (if cfg.Redis.Endpoint ≠ "" then
                [cfg.Prefix ++ "redis", cfg.Prefix ++ "redis", cfg.Prefix ++ "redis"]
              else []))) ∧
      List.Nodup [cfg.Prefix ++ "fifocache", cfg.Prefix ++ "memcache",
        cfg.Prefix ++ "redis", cfg.Prefix ++ "tiered"] := by
  refine ⟨assembled cfg, New_ok_char cfg h1 h2, ?_, kindNames_nodup cfg.Prefix⟩
  unfold assembled tiersOf fifoTier memcachedTier redisTier
  by_cases hf : cfg.EnableFifoCache <;>
    by_cases hm : cfg.MemcacheClient.Host ≠ "" <;>
      by_cases hr : cfg.Redis.Endpoint ≠ "" <;>
        simp_all [NewFifoCache, NewMemcached, NewMemcachedClient, NewRedisCache,
          Instrument, NewBackground, NewTiered, namesOf, namesOfList]

theorem New_layer_names_witness :
    ∃ c, New defaultingConfig = Except.ok c ∧
      namesOf c =
        (if (tiersOf defaultingConfig).length > 1 then
          [defaultingConfig.Prefix ++ "tiered"] else []) ++
          ((if defaultingConfig.EnableFifoCache then
            [defaultingConfig.Prefix ++ "fifocache",
              defaultingConfig.Prefix ++ "fifocache"] else []) ++
            ((if defaultingConfig.MemcacheClient.Host ≠ "" then
              [defaultingConfig.Prefix ++ "memcache",
                defaultingConfig.Prefix ++ "memcache"] else []) ++
              (if defaultingConfig.Redis.Endpoint ≠ "" then
                [defaultingConfig.Prefix ++ "redis",
                  defaultingConfig.Prefix ++ "redis",
                  defaultingConfig.Prefix ++ "redis"]
              else []))) ∧
      List.Nodup [defaultingConfig.Prefix ++ "fifocache",
        defaultingConfig.Prefix ++ "memcache",
        defaultingConfig.Prefix ++ "redis",
        defaultingConfig.Prefix ++ "tiered"] :=
  New_layer_names defaultingConfig rfl (by decide)

end cache
